import Mathlib

/-!
Shallow embedding of the professors-dash lecture-analytics backend
(src/models.py, src/main.py, src/processing.py, src/syllabus_tracker.py,
src/analytics.py, src/database.py), together with theorems settling the
specification claims about it.

Modelling conventions:
* The single ORM table `lectures` (models.py, class `Lecture`) is a list of
  `LectureRow` values; the committed database state is such a list.
* JSON text columns that the code only stores and re-serialises
  (`summary`, `quiz_json`, `key_points_json`, `examples_json`) are modelled
  by their serialised text as `Option String` (NULL = `none`).
* The `topics_json` column, which `calculate_syllabus_coverage` parses with
  `json.loads` and traverses, is modelled by the parse result of its text:
  `Option (List TopicEntry)`, where `none` stands for NULL or text that
  `json.loads` rejects, a `TopicEntry` whose `topic` field is `none`
  stands for a parsed entry on which `t["topic"].strip()` raises (missing
  key or non-string value), and a `none` member of `subtopics` stands for a
  member on which `s.strip()` raises (a non-string).  A `"subtopics"` value
  that is not iterable at all raises as soon as the inner `for` starts,
  which is observationally the list whose first member is bad, and is
  modelled as such.  `json.dumps` followed by `json.loads` is the identity
  in this model.
* `lda_topics_json` stores `json.dumps` of a list of strings and is modelled
  as `Option (List String)`.
* The `created_at` column is never read by any claimed operation and is
  omitted.
* Python `str.strip().lower()` is modelled by whitespace trimming and
  ASCII lower-casing over the string's character list (`normTopic`).
* Python floats appear only in `round(coverage, 2)`; the percentage is
  modelled over `ℚ` with rounding half away from zero at two decimals
  (no claim depends on the tie behaviour of binary-float rounding).
-/

namespace ProfessorsDash

/-! ### Data model (src/models.py) -/

/-- One element of the JSON array stored in the `topics_json` column, i.e.
one element of the `topicsCovered` list produced by `analyze_with_llm`.
`topic = none` models an entry on which `t["topic"].strip()` raises; a
`none` member of `subtopics` models a subtopic on which `s.strip()` raises
(a non-iterable `"subtopics"` value is the degenerate case whose first
member is already bad). -/
structure TopicEntry where
  topic : Option String
  subtopics : List (Option String)
deriving Repr, DecidableEq

/-- A row of the `lectures` table (class `Lecture` in src/models.py). -/
structure LectureRow where
  id : Nat
  status : String
  transcript : Option String := none
  summary : Option String := none
  topics_json : Option (List TopicEntry) := none
  quiz_json : Option String := none
  key_points_json : Option String := none
  examples_json : Option String := none
  lda_topics_json : Option (List String) := none
deriving Repr, DecidableEq

/-- `db.query(models.Lecture).filter(models.Lecture.id == lecture_id).first()`. -/
def findRow (db : List LectureRow) (lectureId : Nat) : Option LectureRow :=
  db.find? (fun r => r.id == lectureId)

/-- Apply `f` to the row(s) with the given id, leaving every other row as is
(the ORM session mutates the queried object in place). -/
def updateRow (db : List LectureRow) (lectureId : Nat) (f : LectureRow → LectureRow) :
    List LectureRow :=
  db.map (fun r => if r.id == lectureId then f r else r)

/-! ### Syllabus coverage (src/syllabus_tracker.py, lines 122-158) -/

/-- Whitespace as removed by Python `str.strip()` with no argument. -/
def isStripped (c : Char) : Bool :=
  c = ' ' || c = '\t' || c = '\n' || c = '\r' || c = Char.ofNat 11 || c = Char.ofNat 12

/-- ASCII lower-casing of one character, as `str.lower()` acts on ASCII. -/
def lowerChar (c : Char) : Char :=
  if 65 ≤ c.toNat ∧ c.toNat ≤ 90 then Char.ofNat (c.toNat + 32) else c

/-- Python `s.strip().lower()`. -/
def normTopic (s : String) : String :=
  ⟨(((s.data.dropWhile isStripped).reverse.dropWhile isStripped).reverse).map lowerChar⟩

/-- The inner `for s in t.get("subtopics", [])` loop of one entry: the
normalized strings added before the first member on which `s.strip()`
raises, paired with whether the loop ran to completion. -/
def subtopicStrings : List (Option String) → List String × Bool
  | [] => ([], true)
  | none :: _ => ([], false)
  | some s :: rest =>
    let (added, ok) := subtopicStrings rest
    (normTopic s :: added, ok)

/-- The normalized strings one parsed `topics_json` array contributes to
`covered_topics`.  The Python loop body
`covered_topics.add(t["topic"].strip().lower()); for s in t.get("subtopics", []): ...`
runs under a per-row `try`, so the first raise — a bad `"topic"` access, or
a bad subtopic after the topic (and any earlier subtopics) were already
added — abandons the rest of that row while keeping everything already
added. -/
def entryStrings : List TopicEntry → List String
  | [] => []
  | e :: rest =>
    match e.topic with
    | none => []
    | some t =>
      match subtopicStrings e.subtopics with
      | (subs, true) => normTopic t :: (subs ++ entryStrings rest)
      | (subs, false) => normTopic t :: subs

/-- The covered-topic set built from `SELECT topics_json FROM lectures WHERE
status = 'DONE'` (membership is what matters; Python uses a `set`): the SQL
status filter fused with the row loop.  A row whose `topics_json` fails
`json.loads` contributes nothing (`except Exception: continue`). -/
def coveredTopics : List LectureRow → List String
  | [] => []
  | r :: rest =>
    if r.status == "DONE" then
      (match r.topics_json with
       | none => []
       | some es => entryStrings es) ++ coveredTopics rest
    else coveredTopics rest

/-- Rounding a rational to two decimal places, modelling `round(x, 2)`. -/
def roundTo2 (q : ℚ) : ℚ := (round (q * 100) : ℤ) / 100

/-- The dictionary returned by `calculate_syllabus_coverage`. -/
structure CoverageResult where
  total_topics : Nat
  covered_topics : Nat
  coverage_percentage : ℚ
  missing_topics : List String
  matched_topics : List String
deriving Repr, DecidableEq

/-- `calculate_syllabus_coverage(db, syllabus_topics)`
(src/syllabus_tracker.py lines 122-158). -/
def calculate_syllabus_coverage (db : List LectureRow) (syllabus_topics : List String) :
    CoverageResult :=
  let covered := coveredTopics db
  let matched := syllabus_topics.filter (fun t => covered.contains (normTopic t))
  let missing := syllabus_topics.filter (fun t => !covered.contains (normTopic t))
  let coverage : ℚ :=
    if syllabus_topics.isEmpty then 0
    else (matched.length : ℚ) / (syllabus_topics.length : ℚ) * 100
  { total_topics := syllabus_topics.length
    covered_topics := matched.length
    coverage_percentage := roundTo2 coverage
    missing_topics := missing
    matched_topics := matched }

/-- All normalized topic and subtopic strings occurring in a parsed
`topics_json` array — the reading of "occurring in the topics_json" that
ignores where an exception would interrupt the Python loop.  On arrays
whose entries all carry a `"topic"` string and only string subtopics this
agrees with `entryStrings`. -/
def allEntryStrings (es : List TopicEntry) : List String :=
  es.foldr
    (fun e acc => (e.topic.toList.map normTopic)
      ++ (e.subtopics.filterMap id).map normTopic ++ acc)
    []

/-- All normalized topic/subtopic strings occurring in the `topics_json` of
`DONE` lectures — the claimed characterisation of the covered set. -/
def specCoveredTopics : List LectureRow → List String
  | [] => []
  | r :: rest =>
    if r.status == "DONE" then
      (match r.topics_json with
       | none => []
       | some es => allEntryStrings es) ++ specCoveredTopics rest
    else specCoveredTopics rest

/-- A parsed `topics_json` array is well formed when every entry has a
usable `"topic"` string and every `"subtopics"` member is a string, so the
Python per-row loop completes without an exception. -/
def wellFormedTopics (o : Option (List TopicEntry)) : Prop :=
  ∀ e ∈ o.getD [], e.topic ≠ none ∧ ∀ s ∈ e.subtopics, s ≠ none

instance (o : Option (List TopicEntry)) : Decidable (wellFormedTopics o) :=
  inferInstanceAs
    (Decidable (∀ e ∈ o.getD [], e.topic ≠ none ∧ ∀ s ∈ e.subtopics, s ≠ none))

/-! ### Background processing (src/processing.py, `ProcessingService`) -/

/-- The dictionary returned by `analyze_with_llm`.  A successful JSON parse
yields the LLM's keys (each modelled by the serialised value of that key when
present; `topicsCovered` by its parse, see the header); both parse-failure
fallbacks return `{"error": "Failed to parse LLM response"}`, modelled by
`errorKey = some _` — `process_lecture_file` raises whenever the key
`"error"` is present. -/
structure AnalysisData where
  errorKey : Option String := none
  summaryInsight : Option String := none
  topicsCovered : Option (List TopicEntry) := none
  questionsAsked : Option String := none
  keyPoints : Option String := none
  examplesUsed : Option String := none
deriving Repr, DecidableEq

/-- The outcomes of the external calls and commits performed by one run of
`process_lecture_file`, fixed up front so the job is a pure function of them.
`Except.error` marks a raised exception.  `get_lda_topics` has no failure
entry: its whole body sits in its own `try/except` returning a list, so it
never raises into the caller.  The `db.rollback()`, re-query, status update
and `db.commit()` of the `except` handler, and the `finally` cleanup, are
modelled as succeeding. -/
structure ProcEnv where
  transcribeResult : Except String String
  analyzeResult : Except String AnalysisData
  ldaTopics : List String
  commitTranscriptOk : Bool
  commitFinalOk : Bool
deriving Repr

/-- The `except Exception` handler of `process_lecture_file` (lines 361-367):
roll back the session, re-query the lecture from the committed state, and if
it exists set its status to `FAILED` and commit. -/
def failPath (committed : List LectureRow) (lectureId : Nat) : List LectureRow :=
  match findRow committed lectureId with
  | none => committed
  | some _ => updateRow committed lectureId (fun r => { r with status := "FAILED" })

/-- `ProcessingService.process_lecture_file(lecture_id, file_path)`
(src/processing.py lines 319-374), as a function from the committed database
state to the committed database state after the job.  The file path only
feeds the transcription call and the `finally` cleanup, neither of which
touches the database, so it is absorbed into `env.transcribeResult`. -/
def process_lecture_file (env : ProcEnv) (db : List LectureRow) (lectureId : Nat) :
    List LectureRow :=
  match findRow db lectureId with
  | none => db
  | some _ =>
    match env.transcribeResult with
    | .error _ => failPath db lectureId
    | .ok transcriptText =>
      if env.commitTranscriptOk then
        let db1 := updateRow db lectureId
          (fun r => { r with transcript := some transcriptText })
        match env.analyzeResult with
        | .error _ => failPath db1 lectureId
        | .ok a =>
          if a.errorKey.isSome then
            failPath db1 lectureId
          else
            let db2 := updateRow db1 lectureId (fun r =>
              { r with
                summary := some (a.summaryInsight.getD "{}")
                topics_json := some (a.topicsCovered.getD [])
                quiz_json := some (a.questionsAsked.getD "[]")
                key_points_json := some (a.keyPoints.getD "[]")
                examples_json := some (a.examplesUsed.getD "[]")
                lda_topics_json := some env.ldaTopics
                status := "DONE" })
            if env.commitFinalOk then db2 else failPath db1 lectureId
      else
        failPath db lectureId

/-! ### Upload endpoint (src/main.py, `upload_lecture`, lines 75-103) -/

/-- `schemas.LectureUploadResponse`: the body returned to the client. -/
structure LectureUploadResponse where
  lecture_id : Nat
  status : String
deriving Repr, DecidableEq

/-- The background task handed to `background_tasks.add_task`: the method
`processing_service.process_lecture_file` with its two arguments, still
unexecuted when the response is returned. -/
structure BackgroundTask where
  lecture_id : Nat
  file_path : String
deriving Repr, DecidableEq

/-- Everything `upload_lecture` produces: the database after its commit, the
path the uploaded bytes were copied to, the dispatched (not yet run)
background task, and the immediate response. -/
structure UploadOutcome where
  db : List LectureRow
  saved_file_path : String
  task : BackgroundTask
  response : LectureUploadResponse
deriving Repr, DecidableEq

/-- The autoincrement primary key assigned by the insert: strictly larger
than every existing id. -/
def freshId (db : List LectureRow) : Nat :=
  (db.map (fun r => r.id)).foldr max 0 + 1

/-- The row created by `models.Lecture(status="PROCESSING")`: every nullable
column NULL. -/
def newLecture (lectureId : Nat) : LectureRow :=
  { id := lectureId, status := "PROCESSING" }

/-- `upload_lecture` (src/main.py lines 75-103): insert a `PROCESSING` row,
commit, save the upload under `temp_uploads/lecture_<id>/<filename>`,
dispatch `process_lecture_file` as a background task, and return
`{"lecture_id": id, "status": "PROCESSING"}` at once. -/
def upload_lecture (db : List LectureRow) (filename : String) : UploadOutcome :=
  let lectureId := freshId db
  let path := "temp_uploads/lecture_" ++ toString lectureId ++ "/" ++ filename
  { db := db ++ [newLecture lectureId]
    saved_file_path := path
    task := { lecture_id := lectureId, file_path := path }
    response := { lecture_id := lectureId, status := "PROCESSING" } }

/-! ### Schema and table usage (src/models.py, src/analytics.py; C7) -/

/-- `Lecture.__tablename__` in src/models.py. -/
def lecturesTableName : String := "lectures"

/-- The tables registered on `database.Base.metadata`: src/models.py declares
exactly one mapped class, `Lecture`, so `Base.metadata.create_all` creates
exactly this table. -/
def schemaTableNames : List String := [lecturesTableName]

/-- Scan a character list for the first occurrence of `kw` and return what
follows it, or `none` when `kw` does not occur. -/
def dropThroughKeyword (kw : List Char) : List Char → Option (List Char)
  | [] => none
  | c :: rest =>
    if (c :: rest).take kw.length = kw then some ((c :: rest).drop kw.length)
    else dropThroughKeyword kw rest

/-- The identifier following the first occurrence of `kw ++ " "` in a SQL
string (the referenced table for the keywords FROM, INTO and UPDATE). -/
def tableAfter (kw : String) (sql : String) : Option String :=
  (dropThroughKeyword (kw ++ " ").data sql.data).map
    (fun cs =>
      ⟨(cs.dropWhile (fun c => c = ' ')).takeWhile (fun c => c.isAlpha || c = '_')⟩)

/-- The raw SQL statements the program executes through `sqlalchemy.text`,
with the surrounding Python triple-quote indentation collapsed to single
spaces: `calculate_syllabus_coverage` (src/syllabus_tracker.py line 130),
`get_questions_per_class`, `get_transcript_length` and
`get_lecture_timeline` (src/analytics.py lines 23, 65, 133).  Every other
database access goes through the ORM (`OrmDbOp`). -/
def rawSqlStatements : List String :=
  [ "SELECT topics_json FROM lectures WHERE status = 'DONE';"
  , "SELECT id, json_array_length(quiz_json) AS question_count FROM lectures WHERE status = 'DONE' ORDER BY id;"
  , "SELECT id, length(transcript) - length(replace(transcript, ' ', '')) + 1 AS word_count FROM lectures WHERE status = 'DONE';"
  , "SELECT id, date(created_at) AS date FROM lectures WHERE status = 'DONE' ORDER BY created_at;" ]

/-- Every ORM-level database operation in the program, one constructor per
`db.add` / `db.query` site: the insert in `upload_lecture` (src/main.py line
83), the selects in `get_lecture_status` (line 70) and `get_lecture_notes`
(line 111), the selects in `get_topics_overview`, `get_summary_metrics` and
`get_syllabus_coverage` (src/analytics.py lines 39, 80, 106), and the
select/update pair in `process_lecture_file` (src/processing.py lines 327,
364). -/
inductive OrmDbOp
  | uploadInsert
  | getLectureStatusSelect
  | getLectureNotesSelect
  | topicsOverviewSelect
  | summaryMetricsSelect
  | syllabusCoverageSelect
  | processSelectAndUpdate
deriving Repr, DecidableEq

/-- The table behind each ORM operation: each site maps the single mapped
class `models.Lecture`. -/
def ormTable : OrmDbOp → String
  | .uploadInsert => lecturesTableName
  | .getLectureStatusSelect => lecturesTableName
  | .getLectureNotesSelect => lecturesTableName
  | .topicsOverviewSelect => lecturesTableName
  | .summaryMetricsSelect => lecturesTableName
  | .syllabusCoverageSelect => lecturesTableName
  | .processSelectAndUpdate => lecturesTableName

/-! ### Helper lemmas -/

theorem subtopicStrings_of_wf (l : List (Option String))
    (h : ∀ s ∈ l, s ≠ none) :
    subtopicStrings l = ((l.filterMap id).map normTopic, true) := by
  induction l with
  | nil => rfl
  | cons s rest ih =>
    obtain ⟨x, hx⟩ : ∃ x, s = some x := by
      cases hs : s with
      | none => exact absurd hs (h s (List.mem_cons_self s rest))
      | some x => exact ⟨x, rfl⟩
    have ihr := ih (fun y hy => h y (List.mem_cons_of_mem s hy))
    simp [subtopicStrings, hx, ihr]

theorem entryStrings_eq_allEntryStrings (es : List TopicEntry)
    (h : ∀ e ∈ es, e.topic ≠ none ∧ ∀ s ∈ e.subtopics, s ≠ none) :
    entryStrings es = allEntryStrings es := by
  induction es with
  | nil => rfl
  | cons e rest ih =>
    obtain ⟨t, ht⟩ : ∃ t, e.topic = some t := by
      cases he : e.topic with
      | none => exact absurd he (h e (List.mem_cons_self e rest)).1
      | some t => exact ⟨t, rfl⟩
    have hsubs := subtopicStrings_of_wf e.subtopics (h e (List.mem_cons_self e rest)).2
    have ihr := ih (fun x hx => h x (List.mem_cons_of_mem e hx))
    simp [entryStrings, allEntryStrings, ht, hsubs, ihr]

theorem coveredTopics_eq_spec (db : List LectureRow)
    (h : ∀ r ∈ db, r.status = "DONE" → wellFormedTopics r.topics_json) :
    coveredTopics db = specCoveredTopics db := by
  induction db with
  | nil => rfl
  | cons r rest ih =>
    have ihr := ih (fun x hx => h x (List.mem_cons_of_mem r hx))
    by_cases hs : r.status = "DONE"
    · have hwf := h r (List.mem_cons_self r rest) hs
      cases hj : r.topics_json with
      | none => simp [coveredTopics, specCoveredTopics, hs, hj, ihr]
      | some es =>
        have : ∀ e ∈ es, e.topic ≠ none ∧ ∀ s ∈ e.subtopics, s ≠ none := by
          intro e he; exact hwf e (by simp [hj] at *; exact he)
        simp [coveredTopics, specCoveredTopics, hs, hj, ihr,
          entryStrings_eq_allEntryStrings es this]
    · simp [coveredTopics, specCoveredTopics, hs, ihr]

/-- C10: for the empty syllabus-topic list, `calculate_syllabus_coverage`
returns total 0, covered 0, percentage 0 and empty matched/missing lists:
the percentage computation is guarded against division by zero. -/
theorem coverage_empty_syllabus (db : List LectureRow) :
    (calculate_syllabus_coverage db []).total_topics = 0 ∧
    (calculate_syllabus_coverage db []).covered_topics = 0 ∧
    (calculate_syllabus_coverage db []).coverage_percentage = 0 ∧
    (calculate_syllabus_coverage db []).matched_topics = [] ∧
    (calculate_syllabus_coverage db []).missing_topics = [] := by
  refine ⟨rfl, rfl, ?_, rfl, rfl⟩
  show roundTo2 0 = 0
  simp [roundTo2]

/-- C4: `matched_topics` and `missing_topics` partition the input syllabus
list: each input topic lands in exactly one of the two, both preserve input
order (they are sublists of the input), and `total_topics` is the input
length, the sum of the two lengths. -/
theorem coverage_partition (db : List LectureRow) (ts : List String) :
    (calculate_syllabus_coverage db ts).total_topics = ts.length ∧
    ts.length = (calculate_syllabus_coverage db ts).matched_topics.length
      + (calculate_syllabus_coverage db ts).missing_topics.length ∧
    (calculate_syllabus_coverage db ts).matched_topics.Sublist ts ∧
    (calculate_syllabus_coverage db ts).missing_topics.Sublist ts ∧
    ∀ t ∈ ts,
      (t ∈ (calculate_syllabus_coverage db ts).matched_topics ∧
        t ∉ (calculate_syllabus_coverage db ts).missing_topics) ∨
      (t ∉ (calculate_syllabus_coverage db ts).matched_topics ∧
        t ∈ (calculate_syllabus_coverage db ts).missing_topics) := by
  refine ⟨rfl, List.length_eq_length_filter_add _, List.filter_sublist ts,
    List.filter_sublist ts, ?_⟩
  intro t ht
  by_cases hc : (coveredTopics db).contains (normTopic t) = true
  · refine Or.inl ⟨List.mem_filter.mpr ⟨ht, hc⟩, fun hmem => ?_⟩
    have h2 := (List.mem_filter.mp hmem).2
    simp only [hc, Bool.not_true] at h2
    exact Bool.false_ne_true h2
  · rw [Bool.not_eq_true] at hc
    refine Or.inr ⟨fun hmem => ?_,
      List.mem_filter.mpr ⟨ht, by simp only [hc, Bool.not_false]⟩⟩
    have h2 := (List.mem_filter.mp hmem).2
    rw [hc] at h2
    exact Bool.false_ne_true h2

/-- A database with one `DONE` lecture whose `topics_json` parses to
`[{"subtopics": ["y"]}, {"topic": "x"}]`: the first entry has no `"topic"`
key, so the Python row loop raises there and never reaches the second. -/
def malformedDb : List LectureRow :=
  [{ id := 1, status := "DONE",
     topics_json := some [{ topic := none, subtopics := [some "y"] },
                          { topic := some "x", subtopics := [] }] }]

/-- A database with one `DONE` lecture whose `topics_json` parses to
`[{"topic": "a", "subtopics": [1]}, {"topic": "x", "subtopics": []}]`: every
entry has a usable `"topic"` string, but `(1).strip()` raises after "a" was
added, so the row aborts and "x" is never covered. -/
def badSubtopicDb : List LectureRow :=
  [{ id := 1, status := "DONE",
     topics_json := some [{ topic := some "a", subtopics := [none] },
                          { topic := some "x", subtopics := [] }] }]

/-- C1 as stated is false: in both `malformedDb` and `badSubtopicDb` the
string "x" occurs as a `"topic"` string of a `DONE` lecture's `topics_json`,
yet `calculate_syllabus_coverage` puts the syllabus topic "x" into
`missing_topics` — the first entry's bad `"topic"` access (respectively bad
subtopic, reached after its topic "a" was already added) aborts the whole
row before "x" is reached. -/
theorem coverage_matched_iff_counterexample :
    (normTopic "x" ∈ specCoveredTopics malformedDb ∧
      "x" ∉ (calculate_syllabus_coverage malformedDb ["x"]).matched_topics ∧
      "x" ∈ (calculate_syllabus_coverage malformedDb ["x"]).missing_topics) ∧
    (normTopic "x" ∈ specCoveredTopics badSubtopicDb ∧
      "x" ∉ (calculate_syllabus_coverage badSubtopicDb ["x"]).matched_topics ∧
      "x" ∈ (calculate_syllabus_coverage badSubtopicDb ["x"]).missing_topics ∧
      "a" ∈ (calculate_syllabus_coverage badSubtopicDb ["a", "x"]).matched_topics) := by
  decide

/-- C1 (amended): provided every `DONE` lecture's `topics_json` entries all
carry a usable `"topic"` string, a syllabus topic is placed in
`matched_topics` iff its `strip().lower()` normalization equals a normalized
topic or subtopic string occurring in the `topics_json` of a `DONE` lecture,
and in `missing_topics` iff it is not. -/
theorem coverage_matched_iff_wellFormed (db : List LectureRow) (ts : List String)
    (hwf : ∀ r ∈ db, r.status = "DONE" → wellFormedTopics r.topics_json)
    (t : String) (ht : t ∈ ts) :
    (t ∈ (calculate_syllabus_coverage db ts).matched_topics ↔
      normTopic t ∈ specCoveredTopics db) ∧
    (t ∈ (calculate_syllabus_coverage db ts).missing_topics ↔
      normTopic t ∉ specCoveredTopics db) := by
  rw [← coveredTopics_eq_spec db hwf]
  refine ⟨⟨fun hmem => ?_, fun hcov => ?_⟩, fun hmem => ?_, fun hncov => ?_⟩
  · exact List.elem_iff.mp (List.mem_filter.mp hmem).2
  · exact List.mem_filter.mpr ⟨ht, List.elem_iff.mpr hcov⟩
  · intro hcov
    have h2 := (List.mem_filter.mp hmem).2
    have h3 := List.elem_iff.mpr hcov
    simp only [h3, Bool.not_true] at h2
    exact Bool.false_ne_true h2
  · refine List.mem_filter.mpr ⟨ht, ?_⟩
    rw [Bool.not_eq_true']
    exact Bool.eq_false_iff.mpr (fun hc => hncov (List.elem_iff.mp hc))

/-- A database with one well-formed `DONE` lecture covering the topic
"Graphs" with subtopic "BFS". -/
def wellDb : List LectureRow :=
  [{ id := 1, status := "DONE",
     topics_json := some [{ topic := some "Graphs", subtopics := [some "BFS"] }] }]

/-- Witness for `coverage_matched_iff_wellFormed` at `wellDb` and the
syllabus `["bfs ", "sorting"]`. -/
theorem coverage_matched_iff_wellFormed_witness :
    ("bfs " ∈ (calculate_syllabus_coverage wellDb ["bfs ", "sorting"]).matched_topics ↔
      normTopic "bfs " ∈ specCoveredTopics wellDb) ∧
    ("bfs " ∈ (calculate_syllabus_coverage wellDb ["bfs ", "sorting"]).missing_topics ↔
      normTopic "bfs " ∉ specCoveredTopics wellDb) :=
  coverage_matched_iff_wellFormed wellDb ["bfs ", "sorting"] (by decide) "bfs " (by decide)

/-- A database with one `DONE` lecture covering the single topic "a". -/
def wellDb2 : List LectureRow :=
  [{ id := 1, status := "DONE",
     topics_json := some [{ topic := some "a", subtopics := [] }] }]

/-- C2 as stated is false: with one `DONE` lecture covering "a" and the
syllabus list `["a", "A"]` (two entries with the same normalization),
`covered_topics` is 2 while the intersection of the normalized syllabus set
with the covered set has cardinality 1. -/
theorem covered_count_counterexample :
    (calculate_syllabus_coverage wellDb2 ["a", "A"]).covered_topics = 2 ∧
    ((["a", "A"].map normTopic).toFinset ∩ (specCoveredTopics wellDb2).toFinset).card = 1 := by
  decide

/-- C2 (amended): when the normalized syllabus topics are pairwise distinct
and every `DONE` lecture's `topics_json` is well formed, the
`covered_topics` count equals the cardinality of the intersection of the
normalized syllabus set with the set of normalized topic and subtopic
strings of `DONE` lectures. -/
theorem covered_count_eq_inter_card (db : List LectureRow) (ts : List String)
    (hnd : (ts.map normTopic).Nodup)
    (hwf : ∀ r ∈ db, r.status = "DONE" → wellFormedTopics r.topics_json) :
    (calculate_syllabus_coverage db ts).covered_topics =
      ((ts.map normTopic).toFinset ∩ (specCoveredTopics db).toFinset).card := by
  rw [← coveredTopics_eq_spec db hwf]
  show (ts.filter fun t => (coveredTopics db).contains (normTopic t)).length =
    ((ts.map normTopic).toFinset ∩ (coveredTopics db).toFinset).card
  revert hnd
  induction ts with
  | nil => intro _; simp
  | cons t rest ih =>
    intro hnd
    rw [List.map_cons, List.nodup_cons] at hnd
    obtain ⟨hnotin, hnd'⟩ := hnd
    have ihr := ih hnd'
    by_cases hc : (coveredTopics db).contains (normTopic t) = true
    · have hmemC : normTopic t ∈ (coveredTopics db).toFinset :=
        List.mem_toFinset.mpr (List.elem_iff.mp hc)
      have hnotmem : normTopic t ∉ (rest.map normTopic).toFinset ∩ (coveredTopics db).toFinset :=
        fun hmem => hnotin (List.mem_toFinset.mp (Finset.mem_of_mem_inter_left hmem))
      rw [List.filter_cons, if_pos hc, List.map_cons, List.toFinset_cons,
        Finset.insert_inter_of_mem hmemC, Finset.card_insert_of_not_mem hnotmem,
        List.length_cons, ihr]
    · have hnmemC : normTopic t ∉ (coveredTopics db).toFinset := by
        intro hmem
        exact hc (List.elem_iff.mpr (List.mem_toFinset.mp hmem))
      rw [List.filter_cons, if_neg hc, List.map_cons, List.toFinset_cons,
        Finset.insert_inter_of_not_mem hnmemC, ihr]

/-- Witness for `covered_count_eq_inter_card` at `wellDb` and the syllabus
`["bfs ", "sorting"]`. -/
theorem covered_count_eq_inter_card_witness :
    (calculate_syllabus_coverage wellDb ["bfs ", "sorting"]).covered_topics =
      ((["bfs ", "sorting"].map normTopic).toFinset ∩
        (specCoveredTopics wellDb).toFinset).card :=
  covered_count_eq_inter_card wellDb ["bfs ", "sorting"] (by decide) (by decide)

theorem findRow_updateRow (db : List LectureRow) (lectureId : Nat)
    (f : LectureRow → LectureRow) (hf : ∀ r, (f r).id = r.id) :
    findRow (updateRow db lectureId f) lectureId = (findRow db lectureId).map f := by
  induction db with
  | nil => rfl
  | cons r rest ih =>
    by_cases h : (r.id == lectureId) = true
    · have h2 : ((f r).id == lectureId) = true := by rw [hf r]; exact h
      have hl : findRow (r :: rest) lectureId = some r := by
        unfold findRow
        exact List.find?_cons_of_pos _ h
      calc findRow (updateRow (r :: rest) lectureId f) lectureId
          = List.find? (fun x => x.id == lectureId) (f r :: updateRow rest lectureId f) := by
            unfold updateRow findRow
            rw [List.map_cons, if_pos h]
        _ = some (f r) := List.find?_cons_of_pos _ h2
        _ = (findRow (r :: rest) lectureId).map f := by rw [hl]; rfl
    · have hl : findRow (r :: rest) lectureId = findRow rest lectureId := by
        unfold findRow
        exact List.find?_cons_of_neg _ h
      calc findRow (updateRow (r :: rest) lectureId f) lectureId
          = List.find? (fun x => x.id == lectureId) (r :: updateRow rest lectureId f) := by
            unfold updateRow findRow
            rw [List.map_cons, if_neg h]
        _ = findRow (updateRow rest lectureId f) lectureId :=
            List.find?_cons_of_neg _ h
        _ = (findRow rest lectureId).map f := ih
        _ = (findRow (r :: rest) lectureId).map f := by rw [hl]

theorem findRow_failPath (db : List LectureRow) (lectureId : Nat) (r₀ : LectureRow)
    (h : findRow db lectureId = some r₀) :
    findRow (failPath db lectureId) lectureId = some { r₀ with status := "FAILED" } := by
  have he : failPath db lectureId =
      updateRow db lectureId (fun r => { r with status := "FAILED" }) := by
    unfold failPath
    rw [h]
  rw [he,
    findRow_updateRow db lectureId (fun r => { r with status := "FAILED" }) (fun r => rfl), h]
  rfl

theorem process_of_transcribe_error (env : ProcEnv) (db : List LectureRow)
    (lectureId : Nat) (r₀ : LectureRow) (e : String)
    (hmem : findRow db lectureId = some r₀)
    (he : env.transcribeResult = Except.error e) :
    process_lecture_file env db lectureId = failPath db lectureId := by
  simp only [process_lecture_file, hmem, he]

theorem process_of_commit1_fail (env : ProcEnv) (db : List LectureRow)
    (lectureId : Nat) (r₀ : LectureRow) (t : String)
    (hmem : findRow db lectureId = some r₀)
    (ht : env.transcribeResult = Except.ok t)
    (hc : env.commitTranscriptOk = false) :
    process_lecture_file env db lectureId = failPath db lectureId := by
  simp only [process_lecture_file, hmem, ht, hc, Option.isSome_some, Option.isSome_none, if_true, if_false]
  try rfl

theorem process_of_analyze_error (env : ProcEnv) (db : List LectureRow)
    (lectureId : Nat) (r₀ : LectureRow) (t e : String)
    (hmem : findRow db lectureId = some r₀)
    (ht : env.transcribeResult = Except.ok t)
    (hc : env.commitTranscriptOk = true)
    (ha : env.analyzeResult = Except.error e) :
    process_lecture_file env db lectureId =
      failPath (updateRow db lectureId (fun r => { r with transcript := some t }))
        lectureId := by
  simp only [process_lecture_file, hmem, ht, hc, ha, Option.isSome_some, Option.isSome_none, if_true, if_false]
  try rfl

theorem process_of_error_key (env : ProcEnv) (db : List LectureRow)
    (lectureId : Nat) (r₀ : LectureRow) (t : String) (a : AnalysisData) (msg : String)
    (hmem : findRow db lectureId = some r₀)
    (ht : env.transcribeResult = Except.ok t)
    (hc : env.commitTranscriptOk = true)
    (ha : env.analyzeResult = Except.ok a)
    (hk : a.errorKey = some msg) :
    process_lecture_file env db lectureId =
      failPath (updateRow db lectureId (fun r => { r with transcript := some t }))
        lectureId := by
  simp only [process_lecture_file, hmem, ht, hc, ha, hk, Option.isSome_some, Option.isSome_none, if_true, if_false]
  try rfl

theorem process_of_commit2_fail (env : ProcEnv) (db : List LectureRow)
    (lectureId : Nat) (r₀ : LectureRow) (t : String) (a : AnalysisData)
    (hmem : findRow db lectureId = some r₀)
    (ht : env.transcribeResult = Except.ok t)
    (hc : env.commitTranscriptOk = true)
    (ha : env.analyzeResult = Except.ok a)
    (hk : a.errorKey = none)
    (hc2 : env.commitFinalOk = false) :
    process_lecture_file env db lectureId =
      failPath (updateRow db lectureId (fun r => { r with transcript := some t }))
        lectureId := by
  simp only [process_lecture_file, hmem, ht, hc, ha, hk, hc2, Option.isSome_some, Option.isSome_none, if_true, if_false]
  try rfl

theorem process_of_success (env : ProcEnv) (db : List LectureRow)
    (lectureId : Nat) (r₀ : LectureRow) (t : String) (a : AnalysisData)
    (hmem : findRow db lectureId = some r₀)
    (ht : env.transcribeResult = Except.ok t)
    (hc : env.commitTranscriptOk = true)
    (ha : env.analyzeResult = Except.ok a)
    (hk : a.errorKey = none)
    (hc2 : env.commitFinalOk = true) :
    process_lecture_file env db lectureId =
      updateRow (updateRow db lectureId (fun r => { r with transcript := some t }))
        lectureId (fun r =>
          { r with
            summary := some (a.summaryInsight.getD "{}")
            topics_json := some (a.topicsCovered.getD [])
            quiz_json := some (a.questionsAsked.getD "[]")
            key_points_json := some (a.keyPoints.getD "[]")
            examples_json := some (a.examplesUsed.getD "[]")
            lda_topics_json := some env.ldaTopics
            status := "DONE" }) := by
  simp only [process_lecture_file, hmem, ht, hc, ha, hk, hc2, Option.isSome_some, Option.isSome_none, if_true, if_false]
  try rfl

/-- C3: when the lecture row exists and any step of the background job fails
— the transcription call raises, a commit raises, the analysis call raises,
or the analysis dictionary carries an `"error"` key (the job then raises
itself); `get_lda_topics` cannot raise — the `except` handler leaves the
row's status `FAILED`. -/
theorem process_failure_sets_failed (env : ProcEnv) (db : List LectureRow)
    (lectureId : Nat) (r₀ : LectureRow)
    (hmem : findRow db lectureId = some r₀)
    (hfail : (∃ e, env.transcribeResult = Except.error e)
      ∨ env.commitTranscriptOk = false
      ∨ (∃ e, env.analyzeResult = Except.error e)
      ∨ (∃ a msg, env.analyzeResult = Except.ok a ∧ a.errorKey = some msg)
      ∨ env.commitFinalOk = false) :
    ∃ r, findRow (process_lecture_file env db lectureId) lectureId = some r ∧
      r.status = "FAILED" := by
  have hmem1 : ∀ t : String,
      findRow (updateRow db lectureId (fun r => { r with transcript := some t }))
        lectureId = some { r₀ with transcript := some t } := by
    intro t
    rw [findRow_updateRow db lectureId (fun r => { r with transcript := some t })
      (fun r => rfl), hmem]
    rfl
  cases hte : env.transcribeResult with
  | error e =>
    rw [process_of_transcribe_error env db lectureId r₀ e hmem hte]
    exact ⟨_, findRow_failPath db lectureId r₀ hmem, rfl⟩
  | ok t =>
    cases hc1 : env.commitTranscriptOk with
    | false =>
      rw [process_of_commit1_fail env db lectureId r₀ t hmem hte hc1]
      exact ⟨_, findRow_failPath db lectureId r₀ hmem, rfl⟩
    | true =>
      cases hae : env.analyzeResult with
      | error e =>
        rw [process_of_analyze_error env db lectureId r₀ t e hmem hte hc1 hae]
        exact ⟨_, findRow_failPath _ lectureId _ (hmem1 t), rfl⟩
      | ok a =>
        cases hk : a.errorKey with
        | some msg =>
          rw [process_of_error_key env db lectureId r₀ t a msg hmem hte hc1 hae hk]
          exact ⟨_, findRow_failPath _ lectureId _ (hmem1 t), rfl⟩
        | none =>
          cases hc2 : env.commitFinalOk with
          | false =>
            rw [process_of_commit2_fail env db lectureId r₀ t a hmem hte hc1 hae hk hc2]
            exact ⟨_, findRow_failPath _ lectureId _ (hmem1 t), rfl⟩
          | true =>
            exfalso
            rcases hfail with ⟨e, he⟩ | hf | ⟨e, he⟩ | ⟨a', msg, ha', hk'⟩ | hf
            · rw [hte] at he
              simp at he
            · rw [hc1] at hf
              simp at hf
            · rw [hae] at he
              simp at he
            · rw [hae] at ha'
              injection ha' with haa
              rw [← haa, hk] at hk'
              simp at hk'
            · rw [hc2] at hf
              simp at hf

/-- A one-row database whose lecture 7 is mid-processing. -/
def procDb : List LectureRow := [newLecture 7]

/-- An environment whose transcription call raises. -/
def transcribeFailEnv : ProcEnv :=
  { transcribeResult := Except.error "connection reset"
    analyzeResult := Except.ok {}
    ldaTopics := []
    commitTranscriptOk := true
    commitFinalOk := true }

/-- Witness for `process_failure_sets_failed`: lecture 7 of `procDb` under
`transcribeFailEnv`. -/
theorem process_failure_sets_failed_witness :
    ∃ r, findRow (process_lecture_file transcribeFailEnv procDb 7) 7 = some r ∧
      r.status = "FAILED" :=
  process_failure_sets_failed transcribeFailEnv procDb 7 (newLecture 7) rfl
    (Or.inl ⟨"connection reset", rfl⟩)

/-- C5: when every step succeeds, the job persists the transcript, stores
the serialised `summaryInsight`, `topicsCovered`, `questionsAsked`,
`keyPoints` and `examplesUsed` fields of the analysis JSON together with the
LDA topic-model output in the lecture's row, and sets its status to
`DONE`. -/
theorem process_success_persists (env : ProcEnv) (db : List LectureRow)
    (lectureId : Nat) (r₀ : LectureRow) (t : String) (a : AnalysisData)
    (hmem : findRow db lectureId = some r₀)
    (ht : env.transcribeResult = Except.ok t)
    (hc1 : env.commitTranscriptOk = true)
    (ha : env.analyzeResult = Except.ok a)
    (hk : a.errorKey = none)
    (hc2 : env.commitFinalOk = true) :
    findRow (process_lecture_file env db lectureId) lectureId = some
      { r₀ with
        transcript := some t
        summary := some (a.summaryInsight.getD "{}")
        topics_json := some (a.topicsCovered.getD [])
        quiz_json := some (a.questionsAsked.getD "[]")
        key_points_json := some (a.keyPoints.getD "[]")
        examples_json := some (a.examplesUsed.getD "[]")
        lda_topics_json := some env.ldaTopics
        status := "DONE" } := by
  rw [process_of_success env db lectureId r₀ t a hmem ht hc1 ha hk hc2]
  have hmem1 :
      findRow (updateRow db lectureId (fun r => { r with transcript := some t }))
        lectureId = some { r₀ with transcript := some t } := by
    rw [findRow_updateRow db lectureId (fun r => { r with transcript := some t })
      (fun r => rfl), hmem]
    rfl
  rw [findRow_updateRow _ lectureId (fun r =>
      { r with
        summary := some (a.summaryInsight.getD "{}")
        topics_json := some (a.topicsCovered.getD [])
        quiz_json := some (a.questionsAsked.getD "[]")
        key_points_json := some (a.keyPoints.getD "[]")
        examples_json := some (a.examplesUsed.getD "[]")
        lda_topics_json := some env.ldaTopics
        status := "DONE" }) (fun r => rfl), hmem1]
  rfl

/-- An environment in which every step of the job succeeds. -/
def successEnv : ProcEnv :=
  { transcribeResult := Except.ok "today we cover graphs"
    analyzeResult := Except.ok
      { summaryInsight := some "serialised-summary-insight"
        topicsCovered := some [{ topic := some "Graphs", subtopics := [some "BFS"] }]
        questionsAsked := some "[]"
        keyPoints := some "[]"
        examplesUsed := some "[]" }
    ldaTopics := ["Topic 1: graph"]
    commitTranscriptOk := true
    commitFinalOk := true }

/-- Witness for `process_success_persists`: lecture 7 of `procDb` under
`successEnv`. -/
theorem process_success_persists_witness :
    findRow (process_lecture_file successEnv procDb 7) 7 = some
      { newLecture 7 with
        transcript := some "today we cover graphs"
        summary := some ((successEnv.analyzeResult.toOption.getD {}).summaryInsight.getD "{}")
        topics_json := some ((successEnv.analyzeResult.toOption.getD {}).topicsCovered.getD [])
        quiz_json := some ((successEnv.analyzeResult.toOption.getD {}).questionsAsked.getD "[]")
        key_points_json := some ((successEnv.analyzeResult.toOption.getD {}).keyPoints.getD "[]")
        examples_json := some ((successEnv.analyzeResult.toOption.getD {}).examplesUsed.getD "[]")
        lda_topics_json := some successEnv.ldaTopics
        status := "DONE" } :=
  process_success_persists successEnv procDb 7 (newLecture 7) "today we cover graphs"
    (successEnv.analyzeResult.toOption.getD {}) rfl rfl rfl rfl rfl rfl

/-- C9: when the transcript commit succeeded and a later step fails (the
analysis raises, returns an `"error"` dictionary, or the final commit
fails), the row keeps the committed transcript while its status becomes
`FAILED`: the failure path does not restore the pre-processing row. -/
theorem process_late_failure_keeps_transcript (env : ProcEnv) (db : List LectureRow)
    (lectureId : Nat) (r₀ : LectureRow) (t : String)
    (hmem : findRow db lectureId = some r₀)
    (ht : env.transcribeResult = Except.ok t)
    (hc1 : env.commitTranscriptOk = true)
    (hlate : (∃ e, env.analyzeResult = Except.error e)
      ∨ (∃ a msg, env.analyzeResult = Except.ok a ∧ a.errorKey = some msg)
      ∨ env.commitFinalOk = false) :
    findRow (process_lecture_file env db lectureId) lectureId =
      some { r₀ with transcript := some t, status := "FAILED" } := by
  have hmem1 :
      findRow (updateRow db lectureId (fun r => { r with transcript := some t }))
        lectureId = some { r₀ with transcript := some t } := by
    rw [findRow_updateRow db lectureId (fun r => { r with transcript := some t })
      (fun r => rfl), hmem]
    rfl
  cases hae : env.analyzeResult with
  | error e =>
    rw [process_of_analyze_error env db lectureId r₀ t e hmem ht hc1 hae]
    exact findRow_failPath _ lectureId _ hmem1
  | ok a =>
    cases hk : a.errorKey with
    | some msg =>
      rw [process_of_error_key env db lectureId r₀ t a msg hmem ht hc1 hae hk]
      exact findRow_failPath _ lectureId _ hmem1
    | none =>
      cases hc2 : env.commitFinalOk with
      | false =>
        rw [process_of_commit2_fail env db lectureId r₀ t a hmem ht hc1 hae hk hc2]
        exact findRow_failPath _ lectureId _ hmem1
      | true =>
        exfalso
        rcases hlate with ⟨e, he⟩ | ⟨a', msg, ha', hk'⟩ | hf
        · rw [hae] at he
          simp at he
        · rw [hae] at ha'
          injection ha' with haa
          rw [← haa, hk] at hk'
          simp at hk'
        · rw [hc2] at hf
          simp at hf

/-- An environment whose transcription and first commit succeed but whose
analysis call raises. -/
def analyzeFailEnv : ProcEnv :=
  { transcribeResult := Except.ok "today we cover graphs"
    analyzeResult := Except.error "rate limited"
    ldaTopics := []
    commitTranscriptOk := true
    commitFinalOk := true }

/-- Witness for `process_late_failure_keeps_transcript`: lecture 7 of
`procDb` under `analyzeFailEnv`. -/
theorem process_late_failure_keeps_transcript_witness :
    findRow (process_lecture_file analyzeFailEnv procDb 7) 7 =
      some { newLecture 7 with
        transcript := some "today we cover graphs", status := "FAILED" } :=
  process_late_failure_keeps_transcript analyzeFailEnv procDb 7 (newLecture 7)
    "today we cover graphs" rfl rfl rfl (Or.inl ⟨"rate limited", rfl⟩)

/-- The status values the spec allows a lecture row. -/
def statusValid (s : String) : Prop :=
  s = "PROCESSING" ∨ s = "DONE" ∨ s = "FAILED"

theorem statusValid_updateRow (db : List LectureRow) (lectureId : Nat)
    (f : LectureRow → LectureRow)
    (h : ∀ r ∈ db, statusValid r.status)
    (hf : ∀ r ∈ db, statusValid (f r).status) :
    ∀ r ∈ updateRow db lectureId f, statusValid r.status := by
  intro r hr
  obtain ⟨r₀, hr₀, hmap⟩ := List.mem_map.mp hr
  by_cases hid : (r₀.id == lectureId) = true
  · rw [if_pos hid] at hmap
    rw [← hmap]
    exact hf r₀ hr₀
  · rw [if_neg hid] at hmap
    rw [← hmap]
    exact h r₀ hr₀

theorem statusValid_failPath (db : List LectureRow) (lectureId : Nat)
    (h : ∀ r ∈ db, statusValid r.status) :
    ∀ r ∈ failPath db lectureId, statusValid r.status := by
  cases hf : findRow db lectureId with
  | none =>
    unfold failPath
    rw [hf]
    exact h
  | some r₁ =>
    unfold failPath
    rw [hf]
    exact statusValid_updateRow db lectureId (fun r => { r with status := "FAILED" }) h
      (fun r _ => Or.inr (Or.inr rfl))

/-- C8: every row is created with status `PROCESSING`, and the two mutating
operations — the upload insert and the background job (whose only writes set
`DONE` on success and `FAILED` on error) — keep every row's status in
{`PROCESSING`, `DONE`, `FAILED`}; all remaining endpoints only read. -/
theorem lecture_status_invariant :
    (∀ lectureId, (newLecture lectureId).status = "PROCESSING") ∧
    (∀ db filename, (∀ r ∈ db, statusValid r.status) →
      ∀ r ∈ (upload_lecture db filename).db, statusValid r.status) ∧
    (∀ env db lectureId, (∀ r ∈ db, statusValid r.status) →
      ∀ r ∈ process_lecture_file env db lectureId, statusValid r.status) := by
  refine ⟨fun _ => rfl, ?_, ?_⟩
  · intro db filename h r hr
    rcases List.mem_append.mp hr with h1 | h2
    · exact h r h1
    · rw [List.mem_singleton.mp h2]
      exact Or.inl rfl
  · intro env db lectureId h
    cases hfr : findRow db lectureId with
    | none =>
      unfold process_lecture_file
      rw [hfr]
      exact h
    | some r₀ =>
      cases hte : env.transcribeResult with
      | error e =>
        rw [process_of_transcribe_error env db lectureId r₀ e hfr hte]
        exact statusValid_failPath db lectureId h
      | ok t =>
        have hdb1 : ∀ r ∈ updateRow db lectureId
            (fun r => { r with transcript := some t }), statusValid r.status :=
          statusValid_updateRow db lectureId (fun r => { r with transcript := some t })
            h (fun r hr => h r hr)
        cases hc1 : env.commitTranscriptOk with
        | false =>
          rw [process_of_commit1_fail env db lectureId r₀ t hfr hte hc1]
          exact statusValid_failPath db lectureId h
        | true =>
          cases hae : env.analyzeResult with
          | error e =>
            rw [process_of_analyze_error env db lectureId r₀ t e hfr hte hc1 hae]
            exact statusValid_failPath _ lectureId hdb1
          | ok a =>
            cases hk : a.errorKey with
            | some msg =>
              rw [process_of_error_key env db lectureId r₀ t a msg hfr hte hc1 hae hk]
              exact statusValid_failPath _ lectureId hdb1
            | none =>
              cases hc2 : env.commitFinalOk with
              | false =>
                rw [process_of_commit2_fail env db lectureId r₀ t a hfr hte hc1 hae hk hc2]
                exact statusValid_failPath _ lectureId hdb1
              | true =>
                rw [process_of_success env db lectureId r₀ t a hfr hte hc1 hae hk hc2]
                refine statusValid_updateRow _ lectureId _ hdb1 (fun r _ => ?_)
                exact Or.inr (Or.inl rfl)

theorem id_lt_freshId (db : List LectureRow) : ∀ r ∈ db, r.id < freshId db := by
  have hle : ∀ (l : List Nat), ∀ x ∈ l, x ≤ l.foldr max 0 := by
    intro l
    induction l with
    | nil => intro x hx; cases hx
    | cons a l ih =>
      intro x hx
      rcases List.mem_cons.mp hx with rfl | hx2
      · exact le_max_left _ _
      · exact le_trans (ih x hx2) (le_max_right _ _)
  intro r hr
  exact Nat.lt_succ_of_le (hle (db.map (fun r => r.id)) r.id (List.mem_map.mpr ⟨r, hr, rfl⟩))

theorem findRow_append_new (db : List LectureRow) :
    findRow (db ++ [newLecture (freshId db)]) (freshId db) =
      some (newLecture (freshId db)) := by
  have hnone : List.find? (fun r : LectureRow => r.id == freshId db) db = none := by
    apply List.find?_eq_none.mpr
    intro r hr hbeq
    exact absurd (beq_iff_eq.mp hbeq) (Nat.ne_of_lt (id_lt_freshId db r hr))
  unfold findRow
  rw [List.find?_append, hnone, Option.none_or]
  refine List.find?_cons_of_pos _ ?_
  show ((newLecture (freshId db)).id == freshId db) = true
  exact beq_self_eq_true _

/-- C6: `upload_lecture` inserts a new `PROCESSING` row whose content
columns are all NULL, saves the upload under `temp_uploads/`, dispatches
`process_lecture_file` on the new id and the saved path as a background
task, and immediately returns the new id with status `"PROCESSING"` —
before any transcription or analysis has touched the row. -/
theorem upload_immediate_response (db : List LectureRow) (filename : String) :
    (upload_lecture db filename).response =
      { lecture_id := freshId db, status := "PROCESSING" } ∧
    findRow (upload_lecture db filename).db (freshId db) =
      some (newLecture (freshId db)) ∧
    (newLecture (freshId db)).status = "PROCESSING" ∧
    (newLecture (freshId db)).transcript = none ∧
    (newLecture (freshId db)).summary = none ∧
    (newLecture (freshId db)).topics_json = none ∧
    (newLecture (freshId db)).lda_topics_json = none ∧
    (upload_lecture db filename).task =
      { lecture_id := freshId db
        file_path := (upload_lecture db filename).saved_file_path } ∧
    ∃ rest, (upload_lecture db filename).saved_file_path = "temp_uploads/" ++ rest := by
  refine ⟨rfl, findRow_append_new db, rfl, rfl, rfl, rfl, rfl, rfl,
    ⟨"lecture_" ++ toString (freshId db) ++ "/" ++ filename, ?_⟩⟩
  show "temp_uploads/lecture_" ++ toString (freshId db) ++ "/" ++ filename = _
  have h1 : "temp_uploads/lecture_" = "temp_uploads/" ++ "lecture_" := rfl
  rw [h1]
  simp only [String.append_assoc]

/-- C7: the data model registers exactly one table, `lectures`; every raw
SQL statement the program executes reads only `FROM lectures` (no INSERT
INTO or UPDATE target appears in any of them), and every ORM-level
operation maps the one class backed by `lectures`. -/
theorem single_lectures_table :
    schemaTableNames = ["lectures"] ∧
    (∀ sql ∈ rawSqlStatements,
      tableAfter "FROM" sql = some lecturesTableName ∧
      tableAfter "INTO" sql = none ∧
      tableAfter "UPDATE" sql = none) ∧
    (∀ op : OrmDbOp, ormTable op = lecturesTableName) := by
  refine ⟨rfl, by decide, fun op => ?_⟩
  cases op <;> rfl

end ProfessorsDash
